import Mathlib

/-!
# go-odbc: the `database/sql` driver adapter (`driver/sql.go`)

A shallow embedding of the adapter layer that maps the generic SQL client
contract (`Open`, `Prepare`, `Begin`, `Exec`, `Query`, `Next`, `Columns`, `Close`)
onto the handle-based primitives of package `odbc`.

Modelling conventions.

* Package `odbc` itself is not part of the sources at hand (only its package
  comment is).  Its primitives are therefore a parameter: a record `Odbc ε σ` of
  state transformers over an arbitrary library state `σ`, with the library's own
  error type `ε`.  Every adapter function is translated from `driver/sql.go`
  and is generic in that record.
* A Go `error` result is `Option (error ε)`; `none` is `nil`.
* Pointers into the library (`*odbc.Connection`, `*odbc.Statement`) are `Ptr`:
  `none` is `nil`.  A method call on such a pointer hands the pointer to the
  library as the receiver.
* The adapter's own objects (`conn`, `tx`, `stmt`, `rows`, `result`) are never
  assigned to after construction, so a non-nil pointer to one of them is
  represented by the object itself.
* Every invocation of a library primitive is recorded in a trace, so that
  "invokes exactly once" and "never invokes" are statements about the code.
-/

namespace driver

/-! ## Data model -/

/-- A pointer to an object owned by package `odbc`: `none` is `nil`. -/
abbrev Ptr := Option Nat

/-- Go `driver.Value`: the adapter passes these through without inspecting them. -/
inductive Value where
  | null
  | int64 (i : Int)
  | bool (b : Bool)
  | bytes (b : List Nat)
  | string (s : String)
  deriving DecidableEq, Repr

/-- The field description returned by `Statement.FieldMetadata`; the adapter reads
only `Name`. -/
structure Field where
  Name : String
  deriving DecidableEq, Repr

/-- Go `error` values that can reach a caller of the adapter: an error produced by
package `odbc` (of the library's own error type `ε`), the sentinel `io.EOF`, or a
value made by `errors.New`. -/
inductive error (ε : Type) where
  | odbc (e : ε)
  | EOF
  | New (text : String)
  deriving DecidableEq, Repr

/-- The `Error()` method: the message of an error, given the library's message
function for its own errors. -/
def error.Error {ε : Type} (msg : ε → String) : error ε → String
  | .odbc e => msg e
  | .EOF => "EOF"
  | .New text => text

/-- Conversion of a library error result to the `error` interface (`nil` stays
`nil`). -/
def toError {ε : Type} : Option ε → Option (error ε)
  | none => none
  | some e => some (error.odbc e)

/-- One invocation of a primitive of package `odbc`, with its arguments. -/
inductive Call where
  | Connect (dsn : String)
  | Connection_Prepare (c : Ptr) (query : String)
  | Connection_AutoCommit (c : Ptr) (b : Bool)
  | Connection_Commit (c : Ptr)
  | Connection_Rollback (c : Ptr)
  | Connection_Close (c : Ptr)
  | Statement_Execute2 (st : Ptr) (args : List Value)
  | Statement_RowsAffected (st : Ptr)
  | Statement_NumParams (st : Ptr)
  | Statement_NumFields (st : Ptr)
  | Statement_FieldMetadata (st : Ptr) (col : Int)
  | Statement_FetchOne2 (st : Ptr) (row : List Value)
  | Statement_Close (st : Ptr)
  deriving DecidableEq, Repr

/-- The primitives of package `odbc` that `driver/sql.go` calls, as transformers of
the library state `σ`.  `Statement_FetchOne2` also returns the row buffer as the
library leaves it. -/
structure Odbc (ε σ : Type) where
  Connect : String → σ → (Ptr × Option ε) × σ
  Connection_Prepare : Ptr → String → σ → (Ptr × Option ε) × σ
  Connection_AutoCommit : Ptr → Bool → σ → Option ε × σ
  Connection_Commit : Ptr → σ → Option ε × σ
  Connection_Rollback : Ptr → σ → Option ε × σ
  Connection_Close : Ptr → σ → Option ε × σ
  Statement_Execute2 : Ptr → List Value → σ → Option ε × σ
  Statement_RowsAffected : Ptr → σ → (Int × Option ε) × σ
  Statement_NumParams : Ptr → σ → Int
  Statement_NumFields : Ptr → σ → (Int × Option ε) × σ
  Statement_FieldMetadata : Ptr → Int → σ → (Field × Option ε) × σ
  Statement_FetchOne2 : Ptr → List Value → σ → (Bool × Option ε × List Value) × σ
  Statement_Close : Ptr → σ → Option ε × σ

/-- The world the adapter runs in: the library's state and the primitives invoked
so far, oldest first. -/
structure World (σ : Type) where
  lib : σ
  trace : List Call

/-- Invoke one primitive: run it on the library state and record the call. -/
def invoke {σ α : Type} (c : Call) (f : σ → α × σ) (w : World σ) : α × World σ :=
  ((f w.lib).1, ⟨(f w.lib).2, w.trace ++ [c]⟩)

/-- The outcome of a Go function that may panic. -/
inductive Outcome (α : Type) where
  | returns (a : α)
  | panics (msg : String)
  deriving DecidableEq, Repr

mutual
/-- Go `type conn struct { c *odbc.Connection; t *tx }`. -/
inductive conn where
  | mk (c : Ptr) (t : Option tx)
/-- Go `type tx struct { c *conn }`. -/
inductive tx where
  | mk (c : conn)
end

/-- Field `c` of `conn`: the library connection. -/
def conn.c : conn → Ptr
  | .mk c _ => c

/-- Field `t` of `conn`. -/
def conn.t : conn → Option tx
  | .mk _ t => t

/-- Field `c` of `tx`: the owning connection. -/
def tx.c : tx → conn
  | .mk c => c

/-- Go `type stmt struct { st *odbc.Statement }`. -/
structure stmt where
  st : Ptr
  deriving DecidableEq, Repr

/-- Go `type result struct { rowsAffected int64 }`.  The count comes from the
library as a Go `int`, for which the conversion `int64(rowsAffected)` preserves the
value. -/
structure result where
  rowsAffected : Int
  deriving DecidableEq, Repr

/-- Go `type rows struct { s *stmt }`. -/
structure rows where
  s : stmt
  deriving DecidableEq, Repr

/-- Go `type Driver struct {}`. -/
structure Driver where
  deriving DecidableEq, Repr

/-! ## Operations (`driver/sql.go`) -/

section Adapter

variable {ε σ : Type}

/-- `func (d *Driver) Open(dsn string) (driver.Conn, error)`. -/
def Driver.Open (L : Odbc ε σ) (_d : Driver) (dsn : String) (w : World σ) :
    (Option conn × Option (error ε)) × World σ :=
  match invoke (Call.Connect dsn) (L.Connect dsn) w with
  | ((_, some err), w1) => ((none, some (error.odbc err)), w1)
  | ((c, none), w1) => ((some (conn.mk c none), none), w1)

/-- `func (d *Driver) Close() error`. -/
def Driver.Close (_d : Driver) : Option (error ε) :=
  none

/-- `func (c *conn) Prepare(query string) (driver.Stmt, error)`. -/
def conn.Prepare (L : Odbc ε σ) (c : conn) (query : String) (w : World σ) :
    (Option stmt × Option (error ε)) × World σ :=
  match invoke (Call.Connection_Prepare c.c query) (L.Connection_Prepare c.c query) w with
  | ((_, some err), w1) => ((none, some (error.odbc err)), w1)
  | ((st, none), w1) => ((some ⟨st⟩, none), w1)

/-- `func (c *conn) Begin() (driver.Tx, error)`. -/
def conn.Begin (L : Odbc ε σ) (c : conn) (w : World σ) :
    (Option tx × Option (error ε)) × World σ :=
  match invoke (Call.Connection_AutoCommit c.c false) (L.Connection_AutoCommit c.c false) w with
  | (some err, w1) => ((none, some (error.odbc err)), w1)
  | (none, w1) => ((some (tx.mk c), none), w1)

/-- `func (c *conn) Close() error`. -/
def conn.Close (L : Odbc ε σ) (c : conn) (w : World σ) : Option (error ε) × World σ :=
  if c.c ≠ none then
    match invoke (Call.Connection_Close c.c) (L.Connection_Close c.c) w with
    | (r, w1) => (toError r, w1)
  else
    (none, w)

/-- `func (t *tx) Commit() error`. -/
def tx.Commit (L : Odbc ε σ) (t : tx) (w : World σ) : Option (error ε) × World σ :=
  match invoke (Call.Connection_Commit t.c.c) (L.Connection_Commit t.c.c) w with
  | (some err, w1) => (some (error.odbc err), w1)
  | (none, w1) => (none, w1)

/-- `func (t *tx) Rollback() error`. -/
def tx.Rollback (L : Odbc ε σ) (t : tx) (w : World σ) : Option (error ε) × World σ :=
  match invoke (Call.Connection_Rollback t.c.c) (L.Connection_Rollback t.c.c) w with
  | (some err, w1) => (some (error.odbc err), w1)
  | (none, w1) => (none, w1)

/-- `func (s *stmt) Exec(args []driver.Value) (driver.Result, error)`. -/
def stmt.Exec (L : Odbc ε σ) (s : stmt) (args : List Value) (w : World σ) :
    (Option result × Option (error ε)) × World σ :=
  match invoke (Call.Statement_Execute2 s.st args) (L.Statement_Execute2 s.st args) w with
  | (some err, w1) => ((none, some (error.odbc err)), w1)
  | (none, w1) =>
    match invoke (Call.Statement_RowsAffected s.st) (L.Statement_RowsAffected s.st) w1 with
    | ((_, some err), w2) => ((none, some (error.odbc err)), w2)
    | ((rowsAffected, none), w2) => ((some ⟨rowsAffected⟩, none), w2)

/-- `func (s *stmt) NumInput() int`. -/
def stmt.NumInput (L : Odbc ε σ) (s : stmt) (w : World σ) : Int × World σ :=
  invoke (Call.Statement_NumParams s.st) (fun l => (L.Statement_NumParams s.st l, l)) w

/-- `func (s *stmt) Query(args []driver.Value) (driver.Rows, error)`. -/
def stmt.Query (L : Odbc ε σ) (s : stmt) (args : List Value) (w : World σ) :
    (Option rows × Option (error ε)) × World σ :=
  match invoke (Call.Statement_Execute2 s.st args) (L.Statement_Execute2 s.st args) w with
  | (some err, w1) => ((none, some (error.odbc err)), w1)
  | (none, w1) => ((some ⟨s⟩, none), w1)

/-- `func (s *stmt) Close() error`: the library's result, if any, is discarded. -/
def stmt.Close (L : Odbc ε σ) (s : stmt) (w : World σ) : Option (error ε) × World σ :=
  match invoke (Call.Statement_Close s.st) (L.Statement_Close s.st) w with
  | (_, w1) => (none, w1)

/-- `func (r *result) LastInsertId() (int64, error)`. -/
def result.LastInsertId (_r : result) : Int × Option (error ε) :=
  (0, some (error.New "not supported"))

/-- `func (r *result) RowsAffected() (int64, error)`. -/
def result.RowsAffected (r : result) : Int × Option (error ε) :=
  (r.rowsAffected, none)

/-- The `for i, _ := range columns` loop of `rows.Columns`: `idx` are the indices
still to visit, `columns` the slice as filled so far.  `none` is the `nil` slice
returned when a metadata call fails. -/
def rows.Columns.loop (L : Odbc ε σ) (r : rows) :
    List Nat → List String → World σ → Option (List String) × World σ
  | [], columns, w => (some columns, w)
  | i :: idx, columns, w =>
    match invoke (Call.Statement_FieldMetadata r.s.st ((i : Int) + 1))
        (L.Statement_FieldMetadata r.s.st ((i : Int) + 1)) w with
    | ((_, some _), w1) => (none, w1)
    | ((f, none), w1) => rows.Columns.loop L r idx (columns.set i f.Name) w1

/-- `func (r *rows) Columns() []string`.  A slice is `Option (List String)` with
`none` the `nil` slice; `make([]string, c)` panics for a negative `c`. -/
def rows.Columns (L : Odbc ε σ) (r : rows) (w : World σ) :
    Outcome (Option (List String)) × World σ :=
  match invoke (Call.Statement_NumFields r.s.st) (L.Statement_NumFields r.s.st) w with
  | ((_, some _), w1) => (Outcome.returns none, w1)
  | ((c, none), w1) =>
    if c < 0 then
      (Outcome.panics "makeslice: len out of range", w1)
    else
      match rows.Columns.loop L r (List.range c.toNat) (List.replicate c.toNat "") w1 with
      | (columns, w2) => (Outcome.returns columns, w2)

/-- `func (r *rows) Close() error`. -/
def rows.Close (L : Odbc ε σ) (r : rows) (w : World σ) : Option (error ε) × World σ :=
  match stmt.Close L r.s w with
  | (some err, w1) => (some err, w1)
  | (none, w1) => (none, w1)

/-- `func (r *rows) Next(dest []driver.Value) error`.  The second component is the
caller's buffer `dest` after the call. -/
def rows.Next (L : Odbc ε σ) (r : rows) (dest : List Value) (w : World σ) :
    (Option (error ε) × List Value) × World σ :=
  match invoke (Call.Statement_FetchOne2 r.s.st dest) (L.Statement_FetchOne2 r.s.st dest) w with
  | ((_, some err, dest1), w1) => ((some (error.odbc err), dest1), w1)
  | ((eof, none, dest1), w1) =>
    if eof then ((some error.EOF, dest1), w1) else ((none, dest1), w1)

/-- Length of a slice (`len`), `0` for the `nil` slice. -/
def len {α : Type} : Option (List α) → Nat
  | none => 0
  | some xs => xs.length

end Adapter

/-! ## Reference definition of `Columns` -/

section Reference

variable {ε σ : Type}

/-- The library state reached from `s` once field metadata has been asked, in
order, for the 1-based positions `1, …, p`. -/
def metadataState (L : Odbc ε σ) (st : Ptr) (s : σ) : Nat → σ
  | 0 => s
  | p + 1 => (L.Statement_FieldMetadata st ((p : Int) + 1) (metadataState L st s p)).2

/-- The library's answer to the metadata call for the 1-based position `p`, the
positions before it having been asked in order from state `s`. -/
def metadataAt (L : Odbc ε σ) (st : Ptr) (s : σ) (p : Nat) : Field × Option ε :=
  (L.Statement_FieldMetadata st (p : Int) (metadataState L st s (p - 1))).1

/-- Reference definition of `Columns`, following the specification: query the
field count; if that fails the result is the absent sequence; otherwise, if the
metadata call succeeds for every 1-based position `1..c`, the result is the
sequence of `c` names whose element at index `i` is the name of the field at
position `i + 1`; if a metadata call fails the result is the absent sequence. -/
def Columns_reference (L : Odbc ε σ) (r : rows) (s : σ) : Option (List String) :=
  match L.Statement_NumFields r.s.st s with
  | ((_, some _), _) => none
  | ((c, none), s1) =>
    if (List.range c.toNat).all (fun i => (metadataAt L r.s.st s1 (i + 1)).2.isNone) then
      some ((List.range c.toNat).map (fun i => (metadataAt L r.s.st s1 (i + 1)).1.Name))
    else
      none

end Reference

/-! ## Package `odbc` as the specification describes it -/

section SpecLibrary

variable {ε σ : Type}

/-- Modelled from the spec: the bind step of `Statement.Execute2` of package
`odbc`, which is not among the sources.  The specification has a call with a
mismatched argument count fail in the underlying bind step: the number of
arguments is compared with the number of parameter placeholders the statement
reports; on a mismatch the call fails with `bindErr` and nothing is executed,
otherwise the statement executes as the library `L` does. -/
def Execute2_spec (L : Odbc ε σ) (bindErr : ε) (st : Ptr) (args : List Value) (s : σ) :
    Option ε × σ :=
  if (args.length : Int) ≠ L.Statement_NumParams st s then (some bindErr, s)
  else L.Statement_Execute2 st args s

/-- Modelled from the spec: package `odbc` (not among the sources) with the bind
step of `Execute2_spec`; every other primitive is that of `L`. -/
def withBindCheck (L : Odbc ε σ) (bindErr : ε) : Odbc ε σ :=
  { L with Statement_Execute2 := Execute2_spec L bindErr }

/-- State of the data source of `source`: the connection-wide autocommit flag, the
placeholder count and affected-row count of the prepared statement, the field
names of its result set and the rows not fetched yet. -/
structure Source where
  autocommit : Bool
  params : Int
  affected : Int
  fields : List String
  pending : List (List Value)
  deriving DecidableEq, Repr

/-- Modelled from the spec: package `odbc` (not among the sources) serving one
data source through the primitives the specification lists.  Autocommit is a
single mode flag on the connection, written by set-autocommit only; commit and
rollback end the transaction and leave the flag alone.  Field metadata is asked by
1-based position; fetch-one hands out the pending rows in order and then reports
end-of-data; this core never fails except for a position without a field. -/
def sourceCore : Odbc String Source where
  Connect := fun _ s => ((some 1, none), s)
  Connection_Prepare := fun _ _ s => ((some 2, none), s)
  Connection_AutoCommit := fun _ b s => (none, { s with autocommit := b })
  Connection_Commit := fun _ s => (none, s)
  Connection_Rollback := fun _ s => (none, s)
  Connection_Close := fun _ s => (none, s)
  Statement_Execute2 := fun _ _ s => (none, s)
  Statement_RowsAffected := fun _ s => ((s.affected, none), s)
  Statement_NumParams := fun _ s => s.params
  Statement_NumFields := fun _ s => (((s.fields.length : Int), none), s)
  Statement_FieldMetadata := fun _ col s =>
    if 1 ≤ col ∧ col ≤ (s.fields.length : Int) then
      ((⟨s.fields.getD (col.toNat - 1) ""⟩, none), s)
    else
      ((⟨""⟩, some "invalid column number"), s)
  Statement_FetchOne2 := fun _ row s =>
    match s.pending with
    | [] => ((true, none, row), s)
    | next :: rest => ((false, none, next), { s with pending := rest })
  Statement_Close := fun _ s => (none, s)

/-- Modelled from the spec: `sourceCore` with the bind step of `Execute2_spec`. -/
def source : Odbc String Source :=
  withBindCheck sourceCore "wrong number of parameters"

/-- A data source in autocommit mode holding the specification's scenario: one
placeholder, one affected row, the field `name` and the rows a, b, c. -/
def scenario : World Source :=
  ⟨⟨true, 1, 1, ["name"], [[Value.string "a"], [Value.string "b"], [Value.string "c"]]⟩, []⟩

end SpecLibrary

/-! ## Theorems -/

section Theorems

variable {ε σ : Type}

/-- C9: for every result value, `LastInsertId` returns the id 0 together with an
error whose message is "not supported"; it never succeeds. -/
theorem result_LastInsertId_not_supported (r : result) :
    (result.LastInsertId r : Int × Option (error ε)) = (0, some (error.New "not supported")) ∧
    (∀ msg : ε → String,
      ((result.LastInsertId r : Int × Option (error ε)).2.map (error.Error msg))
        = some "not supported") ∧
    (result.LastInsertId r : Int × Option (error ε)).2 ≠ none := by
  refine ⟨rfl, fun _ => rfl, ?_⟩
  simp [result.LastInsertId]

/-- C10: `conn.Close` on a connection without an underlying handle invokes no
primitive and returns no error (the world is unchanged); on a connection with a
handle it invokes the close-connection primitive exactly once and returns that
call's result unchanged: the underlying error when the call fails, no error when
it succeeds. -/
theorem conn_Close_contract (L : Odbc ε σ) (c : conn) (w : World σ) :
    (c.c = none → conn.Close L c w = (none, w)) ∧
    (∀ h : Nat, c.c = some h →
      (conn.Close L c w).2 =
        ⟨(L.Connection_Close (some h) w.lib).2,
          w.trace ++ [Call.Connection_Close (some h)]⟩ ∧
      (∀ e, (L.Connection_Close (some h) w.lib).1 = some e →
        (conn.Close L c w).1 = some (error.odbc e)) ∧
      ((L.Connection_Close (some h) w.lib).1 = none → (conn.Close L c w).1 = none) ∧
      ((conn.Close L c w).1 = none ↔ (L.Connection_Close (some h) w.lib).1 = none)) := by
  constructor
  · intro hc
    simp [conn.Close, hc]
  · intro h hc
    cases hr : (L.Connection_Close (some h) w.lib).1 <;>
      simp [conn.Close, hc, invoke, toError, hr]

/-- C7: `conn.Begin` issues exactly one underlying call, set-autocommit(false), and
succeeds exactly when that call succeeds: on failure it returns the underlying
error and no transaction, on success a transaction whose back-reference is the
receiving connection.  This holds for every connection value and every world, so
also when a transaction is already open. -/
theorem conn_Begin_contract (L : Odbc ε σ) (c : conn) (w : World σ) :
    (conn.Begin L c w).2 =
      ⟨(L.Connection_AutoCommit c.c false w.lib).2,
        w.trace ++ [Call.Connection_AutoCommit c.c false]⟩ ∧
    (∀ e, (L.Connection_AutoCommit c.c false w.lib).1 = some e →
      (conn.Begin L c w).1 = (none, some (error.odbc e))) ∧
    ((L.Connection_AutoCommit c.c false w.lib).1 = none →
      (conn.Begin L c w).1 = (some (tx.mk c), none) ∧
      (conn.Begin L c w).1.1.map tx.c = some c) ∧
    ((conn.Begin L c w).1.2 = none ↔ (L.Connection_AutoCommit c.c false w.lib).1 = none) := by
  cases h : (L.Connection_AutoCommit c.c false w.lib).1 <;>
    simp [conn.Begin, invoke, h, tx.c]

/-- C1: `rows.Next` invokes the fetch-one primitive exactly once; a fetch failure
is returned unchanged, a successful fetch reporting end-of-data gives `io.EOF`, a
successful fetch of a row gives no error.  Hence `io.EOF` is returned only when the
fetch succeeded and reported end-of-data.  The caller's buffer is the one the
library filled. -/
theorem rows_Next_contract (L : Odbc ε σ) (r : rows) (dest : List Value) (w : World σ) :
    (rows.Next L r dest w).2 =
      ⟨(L.Statement_FetchOne2 r.s.st dest w.lib).2,
        w.trace ++ [Call.Statement_FetchOne2 r.s.st dest]⟩ ∧
    (∀ e, (L.Statement_FetchOne2 r.s.st dest w.lib).1.2.1 = some e →
      (rows.Next L r dest w).1.1 = some (error.odbc e)) ∧
    ((L.Statement_FetchOne2 r.s.st dest w.lib).1.2.1 = none →
      (L.Statement_FetchOne2 r.s.st dest w.lib).1.1 = true →
      (rows.Next L r dest w).1.1 = some error.EOF) ∧
    ((L.Statement_FetchOne2 r.s.st dest w.lib).1.2.1 = none →
      (L.Statement_FetchOne2 r.s.st dest w.lib).1.1 = false →
      (rows.Next L r dest w).1.1 = none) ∧
    ((rows.Next L r dest w).1.1 = some error.EOF ↔
      (L.Statement_FetchOne2 r.s.st dest w.lib).1.2.1 = none ∧
      (L.Statement_FetchOne2 r.s.st dest w.lib).1.1 = true) ∧
    (rows.Next L r dest w).1.2 = (L.Statement_FetchOne2 r.s.st dest w.lib).1.2.2 := by
  rcases h : L.Statement_FetchOne2 r.s.st dest w.lib with ⟨⟨eof, err, dest1⟩, s1⟩
  cases err <;> cases eof <;> simp [rows.Next, invoke, h]

/-- C3: `stmt.Exec` fails exactly when the bind-and-execute call fails or the
rows-affected query that follows it fails, and then returns the underlying error;
rows-affected is queried only after a successful execute.  When both succeed with
count `n`, the result returned reports `(n, nil)` from `RowsAffected`, a function
of the result value alone. -/
theorem stmt_Exec_contract (L : Odbc ε σ) (s : stmt) (args : List Value) (w : World σ) :
    (∀ e, (L.Statement_Execute2 s.st args w.lib).1 = some e →
      stmt.Exec L s args w =
        ((none, some (error.odbc e)),
          ⟨(L.Statement_Execute2 s.st args w.lib).2,
            w.trace ++ [Call.Statement_Execute2 s.st args]⟩)) ∧
    ((L.Statement_Execute2 s.st args w.lib).1 = none →
      (stmt.Exec L s args w).2 =
        ⟨(L.Statement_RowsAffected s.st (L.Statement_Execute2 s.st args w.lib).2).2,
          w.trace ++ [Call.Statement_Execute2 s.st args, Call.Statement_RowsAffected s.st]⟩ ∧
      (∀ e, (L.Statement_RowsAffected s.st (L.Statement_Execute2 s.st args w.lib).2).1.2 = some e →
        (stmt.Exec L s args w).1 = (none, some (error.odbc e))) ∧
      ((L.Statement_RowsAffected s.st (L.Statement_Execute2 s.st args w.lib).2).1.2 = none →
        ∃ res : result, (stmt.Exec L s args w).1 = (some res, none) ∧
          (result.RowsAffected res : Int × Option (error ε)) =
            ((L.Statement_RowsAffected s.st (L.Statement_Execute2 s.st args w.lib).2).1.1, none))) ∧
    ((stmt.Exec L s args w).1.2 ≠ none ↔
      ((L.Statement_Execute2 s.st args w.lib).1 ≠ none ∨
        (L.Statement_RowsAffected s.st (L.Statement_Execute2 s.st args w.lib).2).1.2 ≠ none)) ∧
    ((stmt.Exec L s args w).1.2 ≠ none → (stmt.Exec L s args w).1.1 = none) := by
  rcases h : L.Statement_Execute2 s.st args w.lib with ⟨err, s1⟩
  cases err with
  | some e => simp [stmt.Exec, invoke, h]
  | none =>
    rcases h2 : L.Statement_RowsAffected s.st s1 with ⟨⟨n, err2⟩, s2⟩
    cases err2 <;> simp [stmt.Exec, invoke, h, h2, result.RowsAffected]

/-- C4: `stmt.Query` runs the same bind-and-execute call as `stmt.Exec` and nothing
else: it fails exactly when that call fails, with the error `Exec` returns for that
failure; when the call succeeds it returns a `rows` cursor whose back-reference
is the receiving statement.  Its only primitive invocation is `Execute2`, so
rows-affected is never queried. -/
theorem stmt_Query_contract (L : Odbc ε σ) (s : stmt) (args : List Value) (w : World σ) :
    (stmt.Query L s args w).2 =
      ⟨(L.Statement_Execute2 s.st args w.lib).2,
        w.trace ++ [Call.Statement_Execute2 s.st args]⟩ ∧
    ((stmt.Query L s args w).1.2 ≠ none ↔ (L.Statement_Execute2 s.st args w.lib).1 ≠ none) ∧
    (∀ e, (L.Statement_Execute2 s.st args w.lib).1 = some e →
      (stmt.Query L s args w).1 = (none, some (error.odbc e)) ∧
      (stmt.Exec L s args w).1.2 = (stmt.Query L s args w).1.2 ∧
      (stmt.Exec L s args w).2 = (stmt.Query L s args w).2) ∧
    ((L.Statement_Execute2 s.st args w.lib).1 = none →
      (stmt.Query L s args w).1 = (some ⟨s⟩, none) ∧
      (stmt.Query L s args w).1.1.map rows.s = some s ∧
      (stmt.Exec L s args w).2.trace =
        (stmt.Query L s args w).2.trace ++ [Call.Statement_RowsAffected s.st]) ∧
    (∀ st, Call.Statement_RowsAffected st ∉ (stmt.Query L s args w).2.trace ↔
      Call.Statement_RowsAffected st ∉ w.trace) := by
  rcases h : L.Statement_Execute2 s.st args w.lib with ⟨err, s1⟩
  cases err with
  | some e => simp [stmt.Query, stmt.Exec, invoke, h]
  | none =>
    rcases h2 : L.Statement_RowsAffected s.st s1 with ⟨⟨n, err2⟩, s2⟩
    cases err2 <;> simp [stmt.Query, stmt.Exec, invoke, h, h2]

/-- C8: `rows.Close` invokes the statement-close primitive exactly once, on the handle
of the owning statement, and returns no error; `stmt.Close` returns no error in
every world and whatever the underlying close call returns, in particular when the
statement was already closed through its `rows`. -/
theorem rows_Close_contract (L : Odbc ε σ) (r : rows) (w : World σ) :
    rows.Close L r w =
      (none, ⟨(L.Statement_Close r.s.st w.lib).2, w.trace ++ [Call.Statement_Close r.s.st]⟩) ∧
    (∀ (s : stmt) (v : World σ),
      stmt.Close L s v =
        (none, ⟨(L.Statement_Close s.st v.lib).2, v.trace ++ [Call.Statement_Close s.st]⟩)) ∧
    (stmt.Close L r.s (rows.Close L r w).2).1 = none := by
  simp [rows.Close, stmt.Close, invoke]

/-- C5: with the bind step of the specification, `Exec` and `Query` called with an
argument list whose length differs from the value of `NumInput()` return the
bind error and no result; nothing is executed, so the library state is untouched
(no truncated or padded execution).  The same holds when the call follows the
`NumInput()` query. -/
theorem stmt_Exec_Query_argument_count (L : Odbc ε σ) (bindErr : ε) (s : stmt)
    (args : List Value) (w : World σ)
    (h : (args.length : Int) ≠ (stmt.NumInput (withBindCheck L bindErr) s w).1) :
    (stmt.Exec (withBindCheck L bindErr) s args w).1 = (none, some (error.odbc bindErr)) ∧
    (stmt.Query (withBindCheck L bindErr) s args w).1 = (none, some (error.odbc bindErr)) ∧
    (stmt.Exec (withBindCheck L bindErr) s args w).2.lib = w.lib ∧
    (stmt.Query (withBindCheck L bindErr) s args w).2.lib = w.lib ∧
    (stmt.Exec (withBindCheck L bindErr) s args
      (stmt.NumInput (withBindCheck L bindErr) s w).2).1 = (none, some (error.odbc bindErr)) ∧
    (stmt.Query (withBindCheck L bindErr) s args
      (stmt.NumInput (withBindCheck L bindErr) s w).2).1 = (none, some (error.odbc bindErr)) := by
  have h1 : (args.length : Int) ≠ L.Statement_NumParams s.st w.lib := by
    simpa [stmt.NumInput, invoke, withBindCheck] using h
  simp [stmt.Exec, stmt.Query, stmt.NumInput, invoke, withBindCheck, Execute2_spec, h1]

/-- Witness for C5: the scenario statement has one placeholder; `Exec` and `Query`
with two arguments fail. -/
theorem stmt_Exec_Query_argument_count_witness :
    ((([Value.string "x", Value.string "y"] : List Value).length : Int) ≠
      (stmt.NumInput source ⟨some 2⟩ scenario).1) ∧
    (stmt.Exec source ⟨some 2⟩ [Value.string "x", Value.string "y"] scenario).1
      = (none, some (error.odbc "wrong number of parameters")) ∧
    (stmt.Query source ⟨some 2⟩ [Value.string "x", Value.string "y"] scenario).1
      = (none, some (error.odbc "wrong number of parameters")) :=
  have h := stmt_Exec_Query_argument_count sourceCore "wrong number of parameters" ⟨some 2⟩
    [Value.string "x", Value.string "y"] scenario (by decide)
  ⟨by decide, h.1, h.2.1⟩

/-- The loop of `rows.Columns`, started at index `k` with the first `k` names
filled in and the library in the state the first `k` metadata calls left, returns
the full list of names when every remaining call succeeds and `nil` otherwise. -/
theorem Columns_loop_run (L : Odbc ε σ) (r : rows) (s1 : σ) :
    ∀ (m k : Nat) (w : World σ), w.lib = metadataState L r.s.st s1 k →
      (rows.Columns.loop L r (List.range' k m)
          ((List.range k).map (fun i => (metadataAt L r.s.st s1 (i + 1)).1.Name)
            ++ List.replicate m "") w).1
        = if (List.range' k m).all (fun i => (metadataAt L r.s.st s1 (i + 1)).2.isNone) then
            some ((List.range (k + m)).map (fun i => (metadataAt L r.s.st s1 (i + 1)).1.Name))
          else none := by
  intro m
  induction m with
  | zero =>
    intro k w _
    simp [rows.Columns.loop]
  | succ m ih =>
    intro k w hw
    have hat : (L.Statement_FieldMetadata r.s.st ((k : Int) + 1) w.lib).1
        = metadataAt L r.s.st s1 (k + 1) := by
      simp [metadataAt, hw]
    rw [List.range'_succ]
    simp only [rows.Columns.loop, invoke]
    rcases hm : L.Statement_FieldMetadata r.s.st ((k : Int) + 1) w.lib with ⟨⟨f, err⟩, s2⟩
    rw [hm] at hat
    cases err with
    | some e => simp [← hat]
    | none =>
      simp only
      have hset : ((List.range k).map (fun i => (metadataAt L r.s.st s1 (i + 1)).1.Name)
            ++ List.replicate (m + 1) "").set k f.Name
          = (List.range (k + 1)).map (fun i => (metadataAt L r.s.st s1 (i + 1)).1.Name)
            ++ List.replicate m "" := by
        rw [List.range_succ, List.map_append, List.replicate_succ]
        simp [List.set_append, ← hat]
      rw [hset, ih (k + 1) ⟨s2, w.trace ++ [Call.Statement_FieldMetadata r.s.st ((k : Int) + 1)]⟩
        (by simp [metadataState, ← hw, hm])]
      have hnone : (metadataAt L r.s.st s1 (k + 1)).2 = none := by rw [← hat]
      rw [List.all_cons, hnone]
      simp only [Option.isNone_none, Bool.true_and]
      rw [Nat.add_assoc, Nat.add_comm 1 m]

/-- C2: `rows.Columns` equals the reference definition whenever the field count is
non-negative: if the field-count call succeeds with `c` and the metadata call
succeeds for every position `1..c`, the result has exactly `c` names, the one at
index `i` being the name of the field at position `i + 1`; if the field-count call
or any of these metadata calls fails, the result is the `nil` slice, of length 0. -/
theorem rows_Columns_refines_reference (L : Odbc ε σ) (r : rows) (w : World σ)
    (h : (L.Statement_NumFields r.s.st w.lib).1.2 = none →
      0 ≤ (L.Statement_NumFields r.s.st w.lib).1.1) :
    (rows.Columns L r w).1 = Outcome.returns (Columns_reference L r w.lib) ∧
    (((L.Statement_NumFields r.s.st w.lib).1.2 = none ∧
        ∀ p : Nat, 1 ≤ p → (p : Int) ≤ (L.Statement_NumFields r.s.st w.lib).1.1 →
          (metadataAt L r.s.st (L.Statement_NumFields r.s.st w.lib).2 p).2 = none) →
      ∃ names : List String, (rows.Columns L r w).1 = Outcome.returns (some names) ∧
        (names.length : Int) = (L.Statement_NumFields r.s.st w.lib).1.1 ∧
        ∀ i : Nat, i < names.length →
          names[i]? = some
            (metadataAt L r.s.st (L.Statement_NumFields r.s.st w.lib).2 (i + 1)).1.Name) ∧
    (((L.Statement_NumFields r.s.st w.lib).1.2 ≠ none ∨
        ∃ p : Nat, 1 ≤ p ∧ (p : Int) ≤ (L.Statement_NumFields r.s.st w.lib).1.1 ∧
          (metadataAt L r.s.st (L.Statement_NumFields r.s.st w.lib).2 p).2 ≠ none) →
      (rows.Columns L r w).1 = Outcome.returns none ∧
      len (Columns_reference L r w.lib) = 0) := by
  rcases hn : L.Statement_NumFields r.s.st w.lib with ⟨⟨c, err⟩, s1⟩
  rw [hn] at h
  cases err with
  | some e => simp [rows.Columns, Columns_reference, invoke, hn, len]
  | none =>
    obtain ⟨n, rfl⟩ := Int.eq_ofNat_of_zero_le (h rfl)
    have hrun := Columns_loop_run L r s1 n 0
      ⟨s1, w.trace ++ [Call.Statement_NumFields r.s.st]⟩ rfl
    have href : (rows.Columns L r w).1 = Outcome.returns (Columns_reference L r w.lib) := by
      simp only [List.range_zero, List.map_nil, List.nil_append, Nat.zero_add,
        ← List.range_eq_range'] at hrun
      simp only [rows.Columns, Columns_reference, invoke, hn, Int.toNat_ofNat]
      rw [if_neg (by omega)]
      simp only [hrun]
    have hval : Columns_reference L r w.lib =
        if (List.range n).all (fun i => (metadataAt L r.s.st s1 (i + 1)).2.isNone) then
          some ((List.range n).map (fun i => (metadataAt L r.s.st s1 (i + 1)).1.Name))
        else none := by
      simp only [Columns_reference, hn, Int.toNat_ofNat]
    refine ⟨href, ?_, ?_⟩
    · rintro ⟨-, hall⟩
      have hok : (List.range n).all (fun i => (metadataAt L r.s.st s1 (i + 1)).2.isNone)
          = true := by
        rw [List.all_eq_true]
        intro i hi
        have hi2 : i < n := List.mem_range.mp hi
        have := hall (i + 1) (by omega) (by simp only []; omega)
        simp only [] at this
        simp [this]
      refine ⟨(List.range n).map (fun i => (metadataAt L r.s.st s1 (i + 1)).1.Name), ?_, ?_, ?_⟩
      · rw [href, hval, if_pos hok]
      · simp
      · intro i hi
        simp only [List.length_map, List.length_range] at hi
        simp [List.getElem?_map, List.getElem?_range hi]
    · rintro (hne | ⟨p, hp1, hpn, hpf⟩)
      · exact absurd rfl hne
      · simp only [] at hpn hpf
        have hbad : ¬ ((List.range n).all (fun i => (metadataAt L r.s.st s1 (i + 1)).2.isNone)
            = true) := by
          rw [List.all_eq_true]
          intro hall
          have := hall (p - 1) (List.mem_range.mpr (by omega))
          rw [Nat.sub_add_cancel hp1] at this
          cases hq : (metadataAt L r.s.st s1 p).2 with
          | none => exact hpf hq
          | some e => rw [hq] at this; simp at this
        rw [href, hval, if_neg hbad]
        exact ⟨rfl, rfl⟩

/-- Witness for C2: the scenario result set has the single field `name`. -/
theorem rows_Columns_refines_reference_witness :
    ((source.Statement_NumFields (some 2) scenario.lib).1.2 = none →
      0 ≤ (source.Statement_NumFields (some 2) scenario.lib).1.1) ∧
    (rows.Columns source ⟨⟨some 2⟩⟩ scenario).1 = Outcome.returns (some ["name"]) :=
  ⟨fun _ => by decide,
    (rows_Columns_refines_reference source ⟨⟨some 2⟩⟩ scenario (fun _ => by decide)).1.trans
      (by decide)⟩

/-- C6, as stated, fails: on a connection in autocommit mode, after a successful
`Begin` followed by `Commit` (or `Rollback`) the autocommit flag is off, not the
mode the connection had before `Begin`. -/
theorem autocommit_not_restored_after_Commit_or_Rollback :
    scenario.lib.autocommit = true ∧
    (conn.Begin source (conn.mk (some 1) none) scenario).1.2 = none ∧
    (conn.Begin source (conn.mk (some 1) none) scenario).1.1.map tx.c
      = some (conn.mk (some 1) none) ∧
    (tx.Commit source (tx.mk (conn.mk (some 1) none))
      (conn.Begin source (conn.mk (some 1) none) scenario).2).2.lib.autocommit
        ≠ scenario.lib.autocommit ∧
    (tx.Rollback source (tx.mk (conn.mk (some 1) none))
      (conn.Begin source (conn.mk (some 1) none) scenario).2).2.lib.autocommit
        ≠ scenario.lib.autocommit := by
  refine ⟨rfl, rfl, rfl, ?_, ?_⟩ <;> decide

/-- C6, amended: after a successful `Begin`, `Commit` or `Rollback` on the resulting
transaction issues the commit or rollback primitive and nothing else, so the only
set-autocommit call made is the set-autocommit(false) of `Begin`; the adapter never
restores autocommit.  For a library whose set-autocommit(false) turns the mode off
and whose commit and rollback leave the mode alone, the mode afterwards is off,
whatever it was before `Begin`. -/
theorem tx_end_leaves_autocommit_off (L : Odbc ε σ) (mode : σ → Bool) (c : conn)
    (w : World σ) (t : tx)
    (hset : ∀ s, (L.Connection_AutoCommit c.c false s).1 = none →
      mode (L.Connection_AutoCommit c.c false s).2 = false)
    (hcommit : ∀ s, mode (L.Connection_Commit c.c s).2 = mode s)
    (hrollback : ∀ s, mode (L.Connection_Rollback c.c s).2 = mode s)
    (hbegin : (conn.Begin L c w).1 = (some t, none)) :
    t.c = c ∧
    (tx.Commit L t (conn.Begin L c w).2).2.trace =
      w.trace ++ [Call.Connection_AutoCommit c.c false, Call.Connection_Commit c.c] ∧
    (tx.Rollback L t (conn.Begin L c w).2).2.trace =
      w.trace ++ [Call.Connection_AutoCommit c.c false, Call.Connection_Rollback c.c] ∧
    mode (tx.Commit L t (conn.Begin L c w).2).2.lib = false ∧
    mode (tx.Rollback L t (conn.Begin L c w).2).2.lib = false := by
  rcases h : L.Connection_AutoCommit c.c false w.lib with ⟨err, s1⟩
  have hs := hset w.lib
  rw [h] at hs
  cases err with
  | some e => simp [conn.Begin, invoke, h] at hbegin
  | none =>
    have ht : t = tx.mk c := by
      simp [conn.Begin, invoke, h] at hbegin
      exact hbegin.symm
    subst ht
    have hc := hcommit s1
    have hr := hrollback s1
    have hm : mode s1 = false := hs rfl
    rcases hcm : L.Connection_Commit c.c s1 with ⟨e1, s2⟩
    rcases hrb : L.Connection_Rollback c.c s1 with ⟨e2, s3⟩
    rw [hcm] at hc
    rw [hrb] at hr
    cases e1 <;> cases e2 <;>
      simp_all [conn.Begin, tx.Commit, tx.Rollback, invoke, tx.c]

/-- Witness for C6 amended: the scenario connection, in autocommit mode before
`Begin`, is left with autocommit off by `Commit` and by `Rollback`. -/
theorem tx_end_leaves_autocommit_off_witness :
    (tx.Commit source (tx.mk (conn.mk (some 1) none))
      (conn.Begin source (conn.mk (some 1) none) scenario).2).2.lib.autocommit = false ∧
    (tx.Rollback source (tx.mk (conn.mk (some 1) none))
      (conn.Begin source (conn.mk (some 1) none) scenario).2).2.lib.autocommit = false :=
  have h := tx_end_leaves_autocommit_off source Source.autocommit (conn.mk (some 1) none)
    scenario (tx.mk (conn.mk (some 1) none)) (fun _ _ => rfl) (fun _ => rfl) (fun _ => rfl) rfl
  ⟨h.2.2.2.1, h.2.2.2.2⟩

/-! ## The specification's scenarios, evaluated -/

/-- Three rows are fetched without error, the fourth `Next` returns `io.EOF`, and
the buffer holds the row fetched. -/
theorem scenario_Next_exhausts :
    (rows.Next source ⟨⟨some 2⟩⟩ [Value.null] scenario).1 = (none, [Value.string "a"]) ∧
    (rows.Next source ⟨⟨some 2⟩⟩ [Value.null]
      (rows.Next source ⟨⟨some 2⟩⟩ [Value.null]
        (rows.Next source ⟨⟨some 2⟩⟩ [Value.null]
          (rows.Next source ⟨⟨some 2⟩⟩ [Value.null] scenario).2).2).2).1
      = (some error.EOF, [Value.null]) := by
  decide

/-- `Exec` with one argument on the scenario statement reports one affected row. -/
theorem scenario_Exec_affected :
    (stmt.Exec source ⟨some 2⟩ [Value.string "x"] scenario).1 = (some ⟨1⟩, none) := by
  decide

/-- A result set announcing two fields of which only the first has metadata:
`Columns` returns the `nil` slice, not a slice with one name filled in. -/
theorem scenario_Columns_metadata_failure :
    (rows.Columns { source with Statement_NumFields := fun _ s => ((2, none), s) }
      ⟨⟨some 2⟩⟩ scenario).1 = Outcome.returns none := by
  decide

end Theorems

end driver
